import Mathlib

/-
Shallow embedding of the Conversation Data Accessor
(src/model/ChatDBManager.js) of the ichat-analysis repository.

Modelling conventions:
- sqlite rows are records over Int / String / Option String; the nullable
  text column is Option String.
- A promise that either resolves or rejects is Except String, the String
  being the error carried by the rejection (database fault or thrown
  TypeError).
- Operations that start from this.query(...) are parameterized by the
  outcome of that underlying query (Except String of the raw rows), so
  that both the resolve and the reject branch of the source are covered;
  the pure SQL semantics of the concrete query texts is modelled
  separately over a Store value (sqlMessagesFor below).
- JavaScript strings are treated as their sequences of characters
  (String.data); toLowerCase is modelled on the ASCII range, which covers
  every input appearing in the specification's fixtures.
- Array.prototype.sort with comparator cmp is modelled by jsSort: the
  stable insertion sort the engine applies to short arrays, which scans
  the sorted prefix from the right and moves the element left exactly
  while cmp element y < 0; a NaN comparator value counts as 0 (a tie),
  as in the JS SortCompare.  With a consistent comparator this agrees
  with every stable sort (and hence with TimSort on longer arrays); with
  the NaN-inconsistent comparators it reproduces the engine's outputs,
  e.g. leaving means 1, NaN, 2 in store order.  The sort inside
  getLongestMessages is modelled separately by sortByLen because its
  comparator can throw; the claims about it quantify over a permutation,
  so its tie order is immaterial there.
- The stats object of getWordFrequencies is an insertion-ordered
  association list whose values are JSCount (NaN or a nonnegative
  integer, the only values the update rule can store).  The lookup
  stats[word] || 0 consults the prototype chain on a miss, so the two
  all-lowercase inherited keys of Object.prototype are modelled:
  constructor (a truthy function, so the first increment stores
  ToNumber(function) + 1 = NaN) and proto-underscore (its inherited
  accessor absorbs assignments and never creates an own key).  Every
  other inherited key contains an uppercase letter and is unreachable
  from lowercased tokens.  Integer-like keys would enumerate first in
  Object.keys; that permutes only ties of equal counts, which no claim
  constrains.
- JavaScript numbers produced by the sentiment mean are integers and
  their quotients, modelled as Rat plus a NaN point (JSNum below).
-/

/-! ## Store rows (tables chat, chat_handle_join, message) -/

structure ChatRow where
  chat_identifier : String
  rowid : Int
  guid : String
deriving DecidableEq

structure ChatHandleJoinRow where
  chat_id : Int
  handle_id : Int
deriving DecidableEq

structure MessageRow where
  text : Option String
  is_from_me : Int
  date : Int
  cache_has_attachments : Int
  handle_id : Int
deriving DecidableEq

structure Store where
  chat : List ChatRow
  chat_handle_join : List ChatHandleJoinRow
  message : List MessageRow
deriving DecidableEq

/-- The Message record shaped by getAllMessagesForIdentifier:
text, is_from_me and cache_has_attachments coerced to Bool, date kept
as the store-native integer (the Date conversion does not matter to any
derived view). -/
structure Message where
  text : Option String
  is_from_me : Bool
  date : Int
  attachment : Bool
deriving DecidableEq

/-! ## SQL semantics of the two query texts -/

/-- Scalar subquery SELECT ROWID FROM chat WHERE guid = 'iMessage;-;' ++
identifier: value of the first matching row, NULL when none matches. -/
def scalarChatRowid (s : Store) (identifier : String) : Option Int :=
  ((s.chat.filter (fun r => r.guid == "iMessage;-;" ++ identifier)).head?).map ChatRow.rowid

/-- Scalar subquery SELECT handle_id FROM chat_handle_join WHERE chat_id =
(...): comparison with NULL matches no row, so an unresolved identifier
propagates NULL. -/
def scalarHandleId (s : Store) (identifier : String) : Option Int :=
  match scalarChatRowid s identifier with
  | none => none
  | some rid =>
    ((s.chat_handle_join.filter (fun r => r.chat_id == rid)).head?).map
      ChatHandleJoinRow.handle_id

/-- SELECT * FROM message WHERE handle_id = (...): the raw rows returned
by the nested query of getAllMessagesForIdentifier. -/
def sqlMessagesFor (s : Store) (identifier : String) : List MessageRow :=
  match scalarHandleId s identifier with
  | none => []
  | some hid => s.message.filter (fun r => r.handle_id == hid)

/-! ## getAllMessagesForIdentifier and allChatIdentifiers -/

/-- Row shaping done in the resolve branch of getAllMessagesForIdentifier:
is_from_me === 1 and cache_has_attachments === 1 coerced to booleans. -/
def toMessage (entry : MessageRow) : Message :=
  { text := entry.text
    is_from_me := entry.is_from_me == 1
    date := entry.date
    attachment := entry.cache_has_attachments == 1 }

/-- getAllMessagesForIdentifier, as a function of the underlying query's
outcome: maps the rows on success, forwards the rejection otherwise. -/
def getAllMessagesForIdentifier (queryResult : Except String (List MessageRow)) :
    Except String (List Message) :=
  match queryResult with
  | Except.error err => Except.error err
  | Except.ok result => Except.ok (result.map toMessage)

/-- allChatIdentifiers: SELECT chat_identifier FROM chat, then map each
record to its chat_identifier field. -/
def allChatIdentifiers (queryResult : Except String (List ChatRow)) :
    Except String (List String) :=
  match queryResult with
  | Except.error err => Except.error err
  | Except.ok result => Except.ok (result.map ChatRow.chat_identifier)

/-! ## JavaScript string operations used by getWordFrequencies -/

/-- The character class of the replace regex in getWordFrequencies.
Faithful to the source pattern: the literal characters . # ! $ % ^ & *
; : brace-open brace-close = - _ backtick ~ ( ), plus the code-point
range from comma (44) to slash (47) written as comma dash slash in the
pattern. -/
def inPunctClass (c : Char) : Bool :=
  c == '.' || (44 ≤ c.toNat && c.toNat ≤ 47) ||
  c == '#' || c == '!' || c == '$' || c == '%' || c == '^' || c == '&' || c == '*' ||
  c == ';' || c == ':' || c == Char.ofNat 123 || c == Char.ofNat 125 || c == '=' ||
  c == '-' || c == '_' || c == Char.ofNat 96 || c == '~' || c == '(' || c == ')'

/-- text.replace(regex, ""): every character of the class is deleted. -/
def stripPunct (text : String) : String :=
  String.mk (text.data.filter (fun c => !inPunctClass c))

/-- The \s character class of JavaScript regular expressions. -/
def jsWhitespace (c : Char) : Bool :=
  c == ' ' || c == '\t' || c == '\n' || c == '\r' || c.toNat == 11 || c.toNat == 12 ||
  c.toNat == 160 || c.toNat == 0x1680 || (0x2000 ≤ c.toNat && c.toNat ≤ 0x200A) ||
  c.toNat == 0x2028 || c.toNat == 0x2029 || c.toNat == 0x202F || c.toNat == 0x205F ||
  c.toNat == 0x3000 || c.toNat == 0xFEFF

/-- Accumulator loop of String.prototype.split at a single-character
class: a separator ends the current (possibly empty) segment. -/
def splitWSAux : List Char → List Char → List (List Char)
  | [], cur => [cur.reverse]
  | c :: rest, cur =>
    if jsWhitespace c then cur.reverse :: splitWSAux rest []
    else splitWSAux rest (c :: cur)

/-- cleanText.split(whitespace regex), keeping empty segments exactly as
the JS split does. -/
def splitWS (text : String) : List (List Char) :=
  splitWSAux text.data []

/-- toLowerCase on the ASCII range. -/
def jsToLower (c : Char) : Char :=
  if 65 ≤ c.toNat && c.toNat ≤ 90 then Char.ofNat (c.toNat + 32) else c

/-- The tokens contributed by one message text: punctuation stripped,
split on whitespace, each token lowercased.  The typeof guard of the
source is always true on split results, so every token is kept. -/
def tokensOf (text : String) : List String :=
  (splitWS (stripPunct text)).map (fun w => String.mk (w.map jsToLower))

/-! ## The stats object and the sorts -/

/-- A JavaScript number the stats object can hold: NaN (from incrementing
the inherited constructor function) or a nonnegative integer count. -/
inductive JSCount where
  | nan : JSCount
  | num : Nat → JSCount
deriving DecidableEq

/-- Effect of stats[word] = stats[word] || 0; stats[word]++ on an own
value: NaN is falsy, so it resets to 0 and increments to 1; a number n
keeps its value through the truthiness test (0 || 0 is 0) and increments
to n + 1. -/
def statsIncr : JSCount → JSCount
  | JSCount.nan => JSCount.num 1
  | JSCount.num n => JSCount.num (n + 1)

/-- The stats update over the insertion-ordered association list of own
keys.  On a miss the lookup falls through to Object.prototype: for the
key constructor the inherited function is truthy, is stored, and the
increment stores ToNumber(function) + 1 = NaN; for the key
proto-underscore both assignments hit the inherited accessor, which
ignores primitive values, so no own key ever appears; any other key
reads undefined and undefined || 0 is 0, incremented to 1. -/
def bumpWord : List (String × JSCount) → String → List (String × JSCount)
  | [], w =>
    if w == "constructor" then [(w, JSCount.nan)]
    else if w == "__proto__" then []
    else [(w, JSCount.num 1)]
  | (k, c) :: rest, w =>
    if k == w then (k, statsIncr c) :: rest else (k, c) :: bumpWord rest w

/-- Nat shadow of the stats update for keys that are not inherited from
Object.prototype; bumpWord agrees with it through liftStats
(bumpWord_lift below). -/
def natBump : List (String × Nat) → String → List (String × Nat)
  | [], w => [(w, 1)]
  | (k, c) :: rest, w =>
    if k == w then (k, c + 1) :: rest else (k, c) :: natBump rest w

/-- Embedding of a Nat-valued stats table into the JS-valued one. -/
def liftStats (l : List (String × Nat)) : List (String × JSCount) :=
  l.map (fun p => (p.1, JSCount.num p.2))

/-- JavaScript addition on the stored counts (NaN absorbs); jsCountSum
formalizes the claim's sum of all counts. -/
def jsCountAdd : JSCount → JSCount → JSCount
  | JSCount.num a, JSCount.num b => JSCount.num (a + b)
  | _, _ => JSCount.nan

def jsCountSum (l : List JSCount) : JSCount :=
  l.foldl jsCountAdd (JSCount.num 0)

/-- Integer reading of a stored count, 0 at NaN; used to relate
jsCountSum to a Nat sum on NaN-free tables. -/
def toNatD : JSCount → Nat
  | JSCount.nan => 0
  | JSCount.num n => n

/-- The non-strict order on counts realized by the comparator
stats[b] - stats[a]: a NaN count ties with every count. -/
def countGe (a b : JSCount) : Prop :=
  match a, b with
  | JSCount.num qa, JSCount.num qb => qb ≤ qa
  | _, _ => True

/-- The token stream of the map callback of getWordFrequencies, in message
order; accessing text.replace on a null text throws a TypeError, which
rejects the promise at the first null non-attachment text. -/
def collectTokens : List Message → Except String (List String)
  | [] => Except.ok []
  | msg :: rest =>
    match msg.text with
    | none => Except.error "TypeError: text is null"
    | some t =>
      match collectTokens rest with
      | Except.error err => Except.error err
      | Except.ok toks => Except.ok (tokensOf t ++ toks)

/-- Forward-scanning insertion step with a strict test: only an analysis
device used to name the list that the fallible sort of getLongestMessages
produces on null-free inputs (see sortByLen_eq); the claims about that
sort quantify over a permutation, so its tie order never matters. -/
def insertBy (lt : α → α → Bool) (x : α) : List α → List α
  | [] => [x]
  | y :: ys => if lt x y then x :: y :: ys else y :: insertBy lt x ys

/-- Forward-scanning insertion sort built on insertBy. -/
def sortBy (lt : α → α → Bool) : List α → List α
  | [] => []
  | x :: xs => insertBy lt x (sortBy lt xs)

/-- One step of the engine's insertion sort: the new element scans the
sorted prefix from the right and moves left exactly while the comparator
is strictly negative on it (a NaN comparator value counts as 0 and stops
the scan).  The prefix is carried reversed (rightmost element first). -/
def insertRAux (lt : α → α → Bool) (x : α) : List α → List α
  | [] => [x]
  | y :: ys => if lt x y then y :: insertRAux lt x ys else x :: y :: ys

/-- The engine's insertion sort over a list, prefix carried reversed. -/
def jsSortAux (lt : α → α → Bool) : List α → List α → List α
  | acc, [] => acc.reverse
  | acc, x :: xs => jsSortAux lt (insertRAux lt x acc) xs

/-- Array.prototype.sort with comparator encoded by its strict test:
the stable insertion sort the engine runs on short arrays. -/
def jsSort (lt : α → α → Bool) (l : List α) : List α :=
  jsSortAux lt [] l

/-- Strict test of the comparator (a, b) => stats[b] - stats[a] of
getWordFrequencies: a comes strictly before b when b's count is a number
smaller than a's; a NaN count makes the comparator NaN, a tie. -/
def wfLt (a b : String × JSCount) : Bool :=
  match a.2, b.2 with
  | JSCount.num qa, JSCount.num qb => decide (qb < qa)
  | _, _ => false

/-- getWordFrequencies, as a function of the fetched message list (the
outcome of getAllMessagesForIdentifier): drops attachment-flagged
messages, tokenizes the remaining texts, counts occurrences in the stats
object, and sorts the (word, count) pairs by descending count. -/
def getWordFrequencies (fetched : Except String (List Message)) :
    Except String (List (String × JSCount)) :=
  match fetched with
  | Except.error err => Except.error err
  | Except.ok messages =>
    match collectTokens (messages.filter (fun msg => !msg.attachment)) with
    | Except.error err => Except.error err
    | Except.ok words =>
      Except.ok (jsSort wfLt (words.foldl bumpWord []))

/-! ## getLongestMessages -/

/-- msg.text.length: throws a TypeError when the text is null. -/
def textLen (msg : Message) : Except String Nat :=
  match msg.text with
  | none => Except.error "TypeError: text is null"
  | some t => Except.ok t.length

/-- The comparator (a, b) => b.text.length - a.text.length; b's length is
evaluated first, and either access throws on a null text. -/
def cmpTextLen (a b : Message) : Except String Int :=
  match textLen b with
  | Except.error err => Except.error err
  | Except.ok lb =>
    match textLen a with
    | Except.error err => Except.error err
    | Except.ok la => Except.ok ((lb : Int) - (la : Int))

/-- Insertion step of the sort of getLongestMessages, with the fallible
comparator. -/
def insertByLen (x : Message) : List Message → Except String (List Message)
  | [] => Except.ok [x]
  | y :: ys =>
    match cmpTextLen x y with
    | Except.error err => Except.error err
    | Except.ok c =>
      if c < 0 then Except.ok (x :: y :: ys)
      else
        match insertByLen x ys with
        | Except.error err => Except.error err
        | Except.ok zs => Except.ok (y :: zs)

/-- messages.sort((a, b) => b.text.length - a.text.length): the whole sort
rejects as soon as one comparison touches a null text; a singleton or
empty list is never compared. -/
def sortByLen : List Message → Except String (List Message)
  | [] => Except.ok []
  | x :: xs =>
    match sortByLen xs with
    | Except.error err => Except.error err
    | Except.ok sorted => insertByLen x sorted

/-- getLongestMessages, as a function of the fetched message list: sorts
all messages (attachment ones included) by descending text length, then
filters out attachment-flagged ones and projects to (text, is_from_me). -/
def getLongestMessages (fetched : Except String (List Message)) :
    Except String (List (Option String × Bool)) :=
  match fetched with
  | Except.error err => Except.error err
  | Except.ok messages =>
    match sortByLen messages with
    | Except.error err => Except.error err
    | Except.ok sortedMessages =>
      Except.ok ((sortedMessages.filter (fun msg => !msg.attachment)).map
        (fun msg => (msg.text, msg.is_from_me)))

/-! ## getMeanSentiment and getConversationMeanSentimentScores -/

/-- A JavaScript number as produced here: a rational or NaN. -/
inductive JSNum where
  | nan : JSNum
  | num : Rat → JSNum
deriving DecidableEq

/-- sentiments.reduce((a, b) => a + b, 0) / sentiments.length: the sum of
an empty list is 0 and 0 / 0 is NaN in JavaScript. -/
def jsMean (scores : List Int) : JSNum :=
  if scores.length = 0 then JSNum.nan
  else JSNum.num ((scores.foldl (· + ·) 0 : Int) / (scores.length : Rat))

/-- Per-message score of getMeanSentiment: 0 for a null text, otherwise
the opaque sentiment scorer's integer score of the text. -/
def msgScore (scorer : String → Int) (msg : Message) : Int :=
  match msg.text with
  | none => 0
  | some t => scorer t

/-- getMeanSentiment, as a function of the fetched message list: no
attachment filtering, every message is scored. -/
def getMeanSentiment (scorer : String → Int) (fetched : Except String (List Message)) :
    Except String JSNum :=
  match fetched with
  | Except.error err => Except.error err
  | Except.ok messages => Except.ok (jsMean (messages.map (msgScore scorer)))

/-- Promise.all over an already-settled list: first rejection wins,
otherwise the list of resolutions in order. -/
def promiseAll : List (Except String α) → Except String (List α)
  | [] => Except.ok []
  | Except.error err :: _ => Except.error err
  | Except.ok v :: rest =>
    match promiseAll rest with
    | Except.error err => Except.error err
    | Except.ok vs => Except.ok (v :: vs)

/-- The per-identifier sentiment computation of the Promise.all fan-out:
getMeanSentiment over the fetched messages of one identifier. -/
def getMeanSentimentFor (scorer : String → Int)
    (fetch : String → Except String (List MessageRow)) (identifier : String) :
    Except String JSNum :=
  getMeanSentiment scorer (getAllMessagesForIdentifier (fetch identifier))

/-- Strict test of the comparator (a, b) => b.score - a.score of
getConversationMeanSentimentScores; a NaN difference counts as 0 in the
JS sort, hence never as strictly-before. -/
def scoreLt (a b : String × JSNum) : Bool :=
  match a.2, b.2 with
  | JSNum.num qa, JSNum.num qb => decide (qb < qa)
  | _, _ => false

/-- The non-increasing-score relation realized by that comparator: a NaN
score ties with every score. -/
def scoreGe (a b : JSNum) : Prop :=
  match a, b with
  | JSNum.num qa, JSNum.num qb => qb ≤ qa
  | _, _ => True

/-- getConversationMeanSentimentScores, as a function of the identifiers
query outcome and of the per-identifier raw-row query outcomes: fans out
getMeanSentiment over every identifier via Promise.all (fail-fast), pairs
each identifier with its value by index, and sorts by descending score. -/
def getConversationMeanSentimentScores (scorer : String → Int)
    (idsResult : Except String (List String))
    (fetch : String → Except String (List MessageRow)) :
    Except String (List (String × JSNum)) :=
  match idsResult with
  | Except.error err => Except.error err
  | Except.ok identifiers =>
    match promiseAll (identifiers.map (getMeanSentimentFor scorer fetch)) with
    | Except.error err => Except.error err
    | Except.ok values =>
      Except.ok (jsSort scoreLt (identifiers.zip values))

/-- The whole pipeline over a concrete store with a fault-free database:
every underlying query is answered by the pure SQL semantics. -/
def storeConversationScores (scorer : String → Int) (s : Store) :
    Except String (List (String × JSNum)) :=
  getConversationMeanSentimentScores scorer (allChatIdentifiers (Except.ok s.chat))
    (fun identifier => Except.ok (sqlMessagesFor s identifier))

deriving instance DecidableEq for Except

/-- The specification fixture message: one non-attachment message with
the text of the round-trip property. -/
def fixtureMsg : Message :=
  Message.mk (some "i love you, I LOVE you!") false 0 false

/-- The punctuation character set exactly as the specification lists it:
dot comma dash slash hash bang dollar percent caret ampersand star
semicolon colon brace-open brace-close equals underscore tilde parens. -/
def specPunctChars : List Char :=
  ['.', ',', '-', '/', '#', '!', '$', '%', '^', '&', '*', ';', ':',
   Char.ofNat 123, Char.ofNat 125, '=', '_', '~', '(', ')']

/-- A store with three conversations whose means are 3, NaN and 4 in
store order: conversation b has a chat row but no joined handle, so its
message list is empty and its mean is 0 / 0 = NaN. -/
def nanStore : Store :=
  Store.mk
    [ChatRow.mk "a" 1 "iMessage;-;a", ChatRow.mk "b" 2 "iMessage;-;b",
     ChatRow.mk "c" 3 "iMessage;-;c"]
    [ChatHandleJoinRow.mk 1 10, ChatHandleJoinRow.mk 3 30]
    [MessageRow.mk (some "pos") 0 0 0 10, MessageRow.mk (some "best") 0 0 0 30]

/-- A store whose two conversations each hold one message, so no mean is
NaN. -/
def witStore : Store :=
  Store.mk
    [ChatRow.mk "a" 1 "iMessage;-;a", ChatRow.mk "b" 2 "iMessage;-;b"]
    [ChatHandleJoinRow.mk 1 10, ChatHandleJoinRow.mk 2 20]
    [MessageRow.mk (some "hey") 0 0 0 10, MessageRow.mk (some "word") 0 0 0 20]

/-- Text length of a projected output pair of getLongestMessages, with
length 0 for a null text (every pair reached by the sorted theorem has a
non-null text). -/
def optTextLen (t : Option String) : Nat := (t.getD "").length

/-- Text length with the null default; on any message whose text is not
null it agrees with the length the comparator reads. -/
def textLenD (msg : Message) : Nat := (msg.text.getD "").length

/-- Strict test realized by the length comparator on null-free inputs. -/
def lenLt (a b : Message) : Bool := decide (textLenD b < textLenD a)

/-! ## General lemmas about the sort model -/

theorem insertBy_perm (lt : α → α → Bool) (x : α) (l : List α) :
    (insertBy lt x l).Perm (x :: l) := by
  induction l with
  | nil => exact List.Perm.refl _
  | cons y ys ih =>
    unfold insertBy
    by_cases h : lt x y = true
    · rw [if_pos h]
    · rw [if_neg h]
      exact (ih.cons y).trans (List.Perm.swap x y ys)

theorem sortBy_perm (lt : α → α → Bool) (l : List α) : (sortBy lt l).Perm l := by
  induction l with
  | nil => exact List.Perm.refl _
  | cons x xs ih =>
    exact (insertBy_perm lt x (sortBy lt xs)).trans (ih.cons x)

theorem insertBy_pairwise (lt : α → α → Bool)
    (hasym : ∀ a b, lt a b = true → lt b a = false)
    (htrans : ∀ a b c, lt a b = true → lt c b = false → lt c a = false)
    (x : α) (l : List α) (hl : l.Pairwise (fun a b => lt b a = false)) :
    (insertBy lt x l).Pairwise (fun a b => lt b a = false) := by
  induction l with
  | nil => simp [insertBy]
  | cons y ys ih =>
    rcases List.pairwise_cons.mp hl with ⟨hy, hys⟩
    unfold insertBy
    by_cases h : lt x y = true
    · rw [if_pos h]
      refine List.pairwise_cons.mpr ⟨?_, hl⟩
      intro z hz
      rcases List.mem_cons.mp hz with rfl | hz2
      · exact hasym x z h
      · exact htrans x y z h (hy z hz2)
    · rw [if_neg h]
      refine List.pairwise_cons.mpr ⟨?_, ih hys⟩
      intro z hz
      have hz3 : z = x ∨ z ∈ ys := by
        have := (insertBy_perm lt x ys).mem_iff.mp hz
        simpa using this
      rcases hz3 with rfl | hz2
      · exact Bool.eq_false_iff.mpr h
      · exact hy z hz2

theorem sortBy_pairwise (lt : α → α → Bool)
    (hasym : ∀ a b, lt a b = true → lt b a = false)
    (htrans : ∀ a b c, lt a b = true → lt c b = false → lt c a = false)
    (l : List α) :
    (sortBy lt l).Pairwise (fun a b => lt b a = false) := by
  induction l with
  | nil => simp [sortBy]
  | cons x xs ih => exact insertBy_pairwise lt hasym htrans x _ ih

/-! ## Lemmas about the engine sort model -/

theorem insertRAux_perm (lt : α → α → Bool) (x : α) (acc : List α) :
    (insertRAux lt x acc).Perm (x :: acc) := by
  induction acc with
  | nil => exact List.Perm.refl _
  | cons y ys ih =>
    unfold insertRAux
    by_cases h : lt x y = true
    · rw [if_pos h]
      exact (ih.cons y).trans (List.Perm.swap x y ys)
    · rw [if_neg h]

theorem jsSortAux_perm (lt : α → α → Bool) (rest : List α) :
    ∀ acc, (jsSortAux lt acc rest).Perm (acc ++ rest) := by
  induction rest with
  | nil =>
    intro acc
    rw [List.append_nil]
    exact acc.reverse_perm
  | cons x xs ih =>
    intro acc
    refine (ih (insertRAux lt x acc)).trans ?_
    refine ((insertRAux_perm lt x acc).append_right xs).trans ?_
    simpa using List.perm_middle.symm

theorem jsSort_perm (lt : α → α → Bool) (l : List α) : (jsSort lt l).Perm l := by
  simpa using jsSortAux_perm lt l []

theorem insertRAux_pairwise (lt : α → α → Bool) (S : α → Prop)
    (hasym : ∀ a b, lt a b = true → lt b a = false)
    (hnt : ∀ a b c, S a → S b → S c → lt a b = false → lt b c = false → lt a c = false)
    (x : α) (hx : S x) (acc : List α) (haccS : ∀ a ∈ acc, S a)
    (hacc : acc.Pairwise (fun a b => lt a b = false)) :
    (insertRAux lt x acc).Pairwise (fun a b => lt a b = false) := by
  induction acc with
  | nil => simp [insertRAux]
  | cons y ys ih =>
    rcases List.pairwise_cons.mp hacc with ⟨hy, hys⟩
    unfold insertRAux
    by_cases h : lt x y = true
    · rw [if_pos h]
      refine List.pairwise_cons.mpr
        ⟨?_, ih (fun a ha => haccS a (List.mem_cons_of_mem y ha)) hys⟩
      intro z hz
      have hz2 : z = x ∨ z ∈ ys := by
        simpa using (insertRAux_perm lt x ys).mem_iff.mp hz
      rcases hz2 with hz3 | hz3
      · rw [hz3]
        exact hasym x y h
      · exact hy z hz3
    · rw [if_neg h]
      refine List.pairwise_cons.mpr ⟨?_, hacc⟩
      intro z hz
      rcases List.mem_cons.mp hz with rfl | hz2
      · exact Bool.eq_false_iff.mpr h
      · exact hnt x y z hx (haccS y (List.mem_cons_self y ys))
          (haccS z (List.mem_cons_of_mem y hz2)) (Bool.eq_false_iff.mpr h) (hy z hz2)

theorem jsSortAux_pairwise (lt : α → α → Bool) (S : α → Prop)
    (hasym : ∀ a b, lt a b = true → lt b a = false)
    (hnt : ∀ a b c, S a → S b → S c → lt a b = false → lt b c = false → lt a c = false)
    (rest : List α) :
    ∀ acc, (∀ a ∈ rest, S a) → (∀ a ∈ acc, S a) →
      acc.Pairwise (fun a b => lt a b = false) →
      (jsSortAux lt acc rest).Pairwise (fun a b => lt b a = false) := by
  induction rest with
  | nil =>
    intro acc _ _ hacc
    exact List.pairwise_reverse.mpr hacc
  | cons x xs ih =>
    intro acc hrestS haccS hacc
    refine ih (insertRAux lt x acc) (fun a ha => hrestS a (List.mem_cons_of_mem x ha)) ?_ ?_
    · intro a ha
      have ha2 : a = x ∨ a ∈ acc := by
        simpa using (insertRAux_perm lt x acc).mem_iff.mp ha
      rcases ha2 with ha3 | ha3
      · rw [ha3]
        exact hrestS x (List.mem_cons_self x xs)
      · exact haccS a ha3
    · exact insertRAux_pairwise lt S hasym hnt x (hrestS x (List.mem_cons_self x xs))
        acc haccS hacc

theorem jsSort_pairwise (lt : α → α → Bool) (S : α → Prop)
    (hasym : ∀ a b, lt a b = true → lt b a = false)
    (hnt : ∀ a b c, S a → S b → S c → lt a b = false → lt b c = false → lt a c = false)
    (l : List α) (hl : ∀ a ∈ l, S a) :
    (jsSort lt l).Pairwise (fun a b => lt b a = false) :=
  jsSortAux_pairwise lt S hasym hnt l [] hl (by simp) (by simp)

/-! ## Lemmas about the stats counting -/

theorem natBump_sum (l : List (String × Nat)) (w : String) :
    ((natBump l w).map Prod.snd).sum = (l.map Prod.snd).sum + 1 := by
  induction l with
  | nil => simp [natBump]
  | cons p rest ih =>
    rcases p with ⟨k, c⟩
    unfold natBump
    by_cases h : (k == w) = true
    · rw [if_pos h]
      simp
      omega
    · rw [if_neg h]
      simp [ih]
      omega

theorem foldl_natBump_sum (ws : List String) (acc : List (String × Nat)) :
    ((ws.foldl natBump acc).map Prod.snd).sum = (acc.map Prod.snd).sum + ws.length := by
  induction ws generalizing acc with
  | nil => simp
  | cons w rest ih =>
    simp only [List.foldl_cons, List.length_cons]
    rw [ih (natBump acc w), natBump_sum]
    omega

theorem bumpWord_lift (l : List (String × Nat)) (w : String)
    (h1 : w ≠ "constructor") (h2 : w ≠ "__proto__") :
    bumpWord (liftStats l) w = liftStats (natBump l w) := by
  induction l with
  | nil => simp [liftStats, bumpWord, natBump, h1, h2]
  | cons p rest ih =>
    rcases p with ⟨k, c⟩
    by_cases hk : (k == w) = true
    · simp only [liftStats, List.map_cons, bumpWord, natBump, hk, if_pos, statsIncr]
    · simp only [liftStats, List.map_cons, bumpWord, natBump, hk, if_neg]
      simpa [liftStats] using ih

theorem foldl_bumpWord_lift (ws : List String) (acc : List (String × Nat))
    (hws : ∀ w ∈ ws, w ≠ "constructor" ∧ w ≠ "__proto__") :
    ws.foldl bumpWord (liftStats acc) = liftStats (ws.foldl natBump acc) := by
  induction ws generalizing acc with
  | nil => rfl
  | cons w rest ih =>
    simp only [List.foldl_cons]
    rw [bumpWord_lift acc w (hws w (List.mem_cons_self w rest)).1
      (hws w (List.mem_cons_self w rest)).2]
    exact ih (natBump acc w) (fun w2 h2 => hws w2 (List.mem_cons_of_mem w h2))

theorem jsCountSum_aux (l : List JSCount) :
    ∀ a : Nat, (∀ x ∈ l, ∃ n, x = JSCount.num n) →
      l.foldl jsCountAdd (JSCount.num a) = JSCount.num (a + (l.map toNatD).sum) := by
  induction l with
  | nil =>
    intro a _
    simp
  | cons x rest ih =>
    intro a h
    rcases h x (List.mem_cons_self x rest) with ⟨n, hxn⟩
    rw [hxn]
    simp only [List.foldl_cons, jsCountAdd, List.map_cons, toNatD, List.sum_cons]
    rw [ih (a + n) (fun y hy => h y (List.mem_cons_of_mem x hy))]
    congr 1
    omega

theorem jsCountSum_eq_num (l : List JSCount) (h : ∀ x ∈ l, ∃ n, x = JSCount.num n) :
    jsCountSum l = JSCount.num (l.map toNatD).sum := by
  simpa [jsCountSum] using jsCountSum_aux l 0 h

/-! ## Lemmas about the token stream -/

theorem collectTokens_error_of_none (l : List Message)
    (h : ∃ m ∈ l, m.text = none) : ∃ e, collectTokens l = Except.error e := by
  induction l with
  | nil => simp at h
  | cons msg rest ih =>
    rcases h with ⟨m, hm, hnone⟩
    rcases List.mem_cons.mp hm with rfl | hmem
    · exact ⟨"TypeError: text is null", by simp [collectTokens, hnone]⟩
    · cases htext : msg.text with
      | none => exact ⟨"TypeError: text is null", by simp [collectTokens, htext]⟩
      | some t =>
        rcases ih ⟨m, hmem, hnone⟩ with ⟨e, he⟩
        exact ⟨e, by simp [collectTokens, htext, he]⟩

theorem collectTokens_ok_of_some (l : List Message)
    (h : ∀ m ∈ l, m.text ≠ none) : ∃ toks, collectTokens l = Except.ok toks := by
  induction l with
  | nil => exact ⟨[], rfl⟩
  | cons msg rest ih =>
    cases htext : msg.text with
    | none => exact absurd htext (h msg (List.mem_cons_self msg rest))
    | some t =>
      rcases ih (fun m hm => h m (List.mem_cons_of_mem msg hm)) with ⟨toks, htoks⟩
      exact ⟨tokensOf t ++ toks, by simp [collectTokens, htext, htoks]⟩

theorem collectTokens_mem (l : List Message) (toks : List String)
    (h : collectTokens l = Except.ok toks) :
    ∀ tok ∈ toks, ∃ m ∈ l, ∃ t, m.text = some t ∧ tok ∈ tokensOf t := by
  induction l generalizing toks with
  | nil =>
    intro tok htok
    simp only [collectTokens, Except.ok.injEq] at h
    subst h
    simp at htok
  | cons msg rest ih =>
    cases htext : msg.text with
    | none => simp [collectTokens, htext] at h
    | some t =>
      cases hrest : collectTokens rest with
      | error e => simp [collectTokens, htext, hrest] at h
      | ok toks2 =>
        have heq : tokensOf t ++ toks2 = toks := by
          simpa [collectTokens, htext, hrest] using h
        subst heq
        intro tok htok
        rcases List.mem_append.mp htok with h1 | h2
        · exact ⟨msg, List.mem_cons_self _ _, t, htext, h1⟩
        · rcases ih toks2 hrest tok h2 with ⟨m, hm, t2, ht2, htok2⟩
          exact ⟨m, List.mem_cons_of_mem _ hm, t2, ht2, htok2⟩

theorem char_ofNat_toNat {n : Nat} (h : n.isValidChar) : (Char.ofNat n).toNat = n := by
  simp only [Char.ofNat, h, dif_pos, Char.ofNatAux, Char.toNat, UInt32.toNat]
  rfl

theorem jsToLower_ne_underscore (c : Char) (hc : c ≠ '_') : jsToLower c ≠ '_' := by
  unfold jsToLower
  by_cases h : (65 ≤ c.toNat && c.toNat ≤ 90) = true
  · rw [if_pos h]
    simp only [Bool.and_eq_true, decide_eq_true_eq] at h
    intro he
    have hv : (c.toNat + 32).isValidChar := by
      unfold Nat.isValidChar
      omega
    have h95 : (Char.ofNat (c.toNat + 32)).toNat = 95 := by
      rw [he]
      rfl
    rw [char_ofNat_toNat hv] at h95
    omega
  · rw [if_neg h]
    exact hc

theorem splitWSAux_chars (cs : List Char) :
    ∀ cur seg, seg ∈ splitWSAux cs cur → ∀ ch ∈ seg, ch ∈ cs ∨ ch ∈ cur := by
  induction cs with
  | nil =>
    intro cur seg hseg ch hch
    simp only [splitWSAux, List.mem_singleton] at hseg
    subst hseg
    exact Or.inr (List.mem_reverse.mp hch)
  | cons c rest ih =>
    intro cur seg hseg ch hch
    unfold splitWSAux at hseg
    by_cases hws : jsWhitespace c = true
    · rw [if_pos hws] at hseg
      rcases List.mem_cons.mp hseg with rfl | h2
      · exact Or.inr (List.mem_reverse.mp hch)
      · rcases ih [] seg h2 ch hch with h3 | h3
        · exact Or.inl (List.mem_cons_of_mem c h3)
        · simp at h3
    · rw [if_neg hws] at hseg
      rcases ih (c :: cur) seg hseg ch hch with h3 | h3
      · exact Or.inl (List.mem_cons_of_mem c h3)
      · rcases List.mem_cons.mp h3 with h4 | h4
        · rw [h4]
          exact Or.inl (List.mem_cons_self c rest)
        · exact Or.inr h4

theorem tokensOf_no_underscore (t : String) (tok : String) (h : tok ∈ tokensOf t) :
    ('_' : Char) ∉ tok.data := by
  unfold tokensOf at h
  rcases List.mem_map.mp h with ⟨w, hw, rfl⟩
  intro hmem
  have hmem2 : ('_' : Char) ∈ w.map jsToLower := hmem
  rcases List.mem_map.mp hmem2 with ⟨c, hc, hlc⟩
  by_cases hcu : c = '_'
  · have hsub := splitWSAux_chars (stripPunct t).data [] w hw c hc
    rcases hsub with h3 | h3
    · have h4 : c ∈ t.data.filter (fun ch => !inPunctClass ch) := h3
      rcases List.mem_filter.mp h4 with ⟨_, hpred⟩
      rw [hcu] at hpred
      exact absurd hpred (by decide)
    · simp at h3
  · exact (jsToLower_ne_underscore c hcu) hlc

theorem collectTokens_no_proto (l : List Message) (toks : List String)
    (h : collectTokens l = Except.ok toks) : "__proto__" ∉ toks := by
  intro hmem
  rcases collectTokens_mem l toks h "__proto__" hmem with ⟨m, _, t, _, htok⟩
  exact (tokensOf_no_underscore t _ htok) (by decide)

/-! ## Lemmas about the Promise.all fan-out -/

theorem promiseAll_error (l : List (Except String α)) (e : String)
    (h : Except.error e ∈ l) :
    ∃ e2, promiseAll l = Except.error e2 ∧ Except.error e2 ∈ l := by
  induction l with
  | nil => simp at h
  | cons x rest ih =>
    cases x with
    | error e0 => exact ⟨e0, rfl, List.mem_cons_self _ _⟩
    | ok v =>
      have hrest : Except.error e ∈ rest := by
        rcases List.mem_cons.mp h with h1 | h2
        · exact absurd h1 (by simp)
        · exact h2
      rcases ih hrest with ⟨e2, he2, hmem⟩
      refine ⟨e2, ?_, List.mem_cons_of_mem _ hmem⟩
      simp [promiseAll, he2]

theorem promiseAll_ok_map (f : β → α) (l : List β) :
    promiseAll (l.map (fun b => Except.ok (f b))) = Except.ok (l.map f) := by
  induction l with
  | nil => rfl
  | cons b rest ih => simp [promiseAll, ih]

theorem jsMean_num_of_ne_nil (scores : List Int) (h : scores ≠ []) :
    ∃ q, jsMean scores = JSNum.num q := by
  unfold jsMean
  rw [if_neg (fun hlen => h (List.length_eq_zero.mp hlen))]
  exact ⟨_, rfl⟩

/-! ## Lemmas about the fallible length sort -/

theorem insertByLen_eq (x : Message) (l : List Message)
    (hx : x.text ≠ none) (hl : ∀ m ∈ l, m.text ≠ none) :
    insertByLen x l = Except.ok (insertBy lenLt x l) := by
  induction l with
  | nil => rfl
  | cons y ys ih =>
    obtain ⟨tx, htx⟩ := Option.ne_none_iff_exists'.mp hx
    obtain ⟨ty, hty⟩ := Option.ne_none_iff_exists'.mp (hl y (List.mem_cons_self y ys))
    have hcmp : cmpTextLen x y = Except.ok ((ty.length : Int) - (tx.length : Int)) := by
      simp [cmpTextLen, textLen, htx, hty]
    by_cases h : ((ty.length : Int) - (tx.length : Int)) < 0
    · have hlt : lenLt x y = true := by
        simp only [lenLt, textLenD, htx, hty, Option.getD_some, decide_eq_true_eq]
        omega
      simp [insertByLen, hcmp, h, insertBy, hlt]
    · have hlt : lenLt x y = false := by
        simp only [lenLt, textLenD, htx, hty, Option.getD_some, decide_eq_false_iff_not]
        omega
      have hih := ih (fun m hm => hl m (List.mem_cons_of_mem y hm))
      simp [insertByLen, hcmp, h, hih, insertBy, hlt]

theorem sortByLen_eq (l : List Message) (hl : ∀ m ∈ l, m.text ≠ none) :
    sortByLen l = Except.ok (sortBy lenLt l) := by
  induction l with
  | nil => rfl
  | cons x xs ih =>
    unfold sortByLen
    rw [ih (fun m hm => hl m (List.mem_cons_of_mem x hm))]
    have hmem : ∀ m ∈ sortBy lenLt xs, m.text ≠ none := fun m hm =>
      hl m (List.mem_cons_of_mem x ((sortBy_perm lenLt xs).mem_iff.mp hm))
    exact insertByLen_eq x (sortBy lenLt xs) (hl x (List.mem_cons_self x xs)) hmem

/-! ## A small character fact -/

theorem char_eq_of_toNat_eq {a b : Char} (h : a.toNat = b.toNat) : a = b := by
  apply Char.ext
  apply UInt32.ext
  exact h

/-! ## Comparator facts -/

theorem wfLt_asym (a b : String × JSCount) (h : wfLt a b = true) : wfLt b a = false := by
  rcases a with ⟨ka, ca⟩
  rcases b with ⟨kb, cb⟩
  cases ca with
  | nan => simp [wfLt] at h
  | num qa =>
    cases cb with
    | nan => simp [wfLt] at h
    | num qb =>
      simp only [wfLt, decide_eq_true_eq] at h
      simp only [wfLt, decide_eq_false_iff_not]
      omega

theorem wfLt_nt (a b c : String × JSCount)
    (ha : ∃ n, a.2 = JSCount.num n) (hb : ∃ n, b.2 = JSCount.num n)
    (hc : ∃ n, c.2 = JSCount.num n)
    (h1 : wfLt a b = false) (h2 : wfLt b c = false) : wfLt a c = false := by
  rcases ha with ⟨na, hna⟩
  rcases hb with ⟨nb, hnb⟩
  rcases hc with ⟨nc, hnc⟩
  simp only [wfLt, hna, hnb, hnc, decide_eq_false_iff_not] at h1 h2 ⊢
  omega

theorem countGe_of_wfLt_false (p q : String × JSCount) (h : wfLt q p = false) :
    countGe p.2 q.2 := by
  rcases p with ⟨kp, cp⟩
  rcases q with ⟨kq, cq⟩
  cases cp with
  | nan => trivial
  | num qp =>
    cases cq with
    | nan => trivial
    | num qq =>
      simp only [wfLt, decide_eq_false_iff_not] at h
      exact Nat.not_lt.mp h

theorem lenLt_asym (a b : Message) (h : lenLt a b = true) : lenLt b a = false := by
  simp only [lenLt, decide_eq_true_eq] at h
  simp only [lenLt, decide_eq_false_iff_not]
  omega

theorem lenLt_skip (a b c : Message) (h1 : lenLt a b = true) (h2 : lenLt c b = false) :
    lenLt c a = false := by
  simp only [lenLt, decide_eq_true_eq] at h1
  simp only [lenLt, decide_eq_false_iff_not] at h2
  simp only [lenLt, decide_eq_false_iff_not]
  omega

theorem scoreLt_asym (a b : String × JSNum) (h : scoreLt a b = true) : scoreLt b a = false := by
  rcases a with ⟨ia, sa⟩
  rcases b with ⟨ib, sb⟩
  cases sa with
  | nan => simp [scoreLt] at h
  | num qa =>
    cases sb with
    | nan => simp [scoreLt] at h
    | num qb =>
      simp only [scoreLt, decide_eq_true_eq] at h
      simp only [scoreLt, decide_eq_false_iff_not]
      exact not_lt.mpr h.le

theorem scoreLt_nt (a b c : String × JSNum)
    (ha : ∃ q, a.2 = JSNum.num q) (hb : ∃ q, b.2 = JSNum.num q)
    (hc : ∃ q, c.2 = JSNum.num q)
    (h1 : scoreLt a b = false) (h2 : scoreLt b c = false) : scoreLt a c = false := by
  rcases ha with ⟨qa, hqa⟩
  rcases hb with ⟨qb, hqb⟩
  rcases hc with ⟨qc, hqc⟩
  simp only [scoreLt, hqa, hqb, hqc, decide_eq_false_iff_not] at h1 h2 ⊢
  intro hlt
  exact h1 (lt_of_le_of_lt (le_of_not_lt h2) hlt)

theorem scoreGe_of_scoreLt_false (p q : String × JSNum) (h : scoreLt q p = false) :
    scoreGe p.2 q.2 := by
  rcases p with ⟨ip, sp⟩
  rcases q with ⟨iq, sq⟩
  cases sp with
  | nan => trivial
  | num qp =>
    cases sq with
    | nan => trivial
    | num qq =>
      simp only [scoreLt, decide_eq_false_iff_not] at h
      exact not_lt.mp h

/-! ## Claim theorems -/

/-- Claim C1: an identifier that resolves to no conversation (no row of
the chat table carries the composite guid for it) makes the message query
return no rows, so getAllMessagesForIdentifier resolves with the empty
sequence instead of rejecting; it rejects exactly when the underlying
query itself rejects, forwarding that error. -/
theorem getAllMessages_unresolved_empty (s : Store) (identifier : String)
    (h : ∀ r ∈ s.chat, r.guid ≠ "iMessage;-;" ++ identifier) :
    getAllMessagesForIdentifier (Except.ok (sqlMessagesFor s identifier)) = Except.ok [] ∧
    ∀ e : String, getAllMessagesForIdentifier (Except.error e) = Except.error e := by
  constructor
  · have hfilter : s.chat.filter (fun r => r.guid == "iMessage;-;" ++ identifier) = [] := by
      apply List.filter_eq_nil_iff.mpr
      intro r hr
      simpa using h r hr
    simp [getAllMessagesForIdentifier, sqlMessagesFor, scalarHandleId, scalarChatRowid, hfilter]
  · intro e
    rfl

/-- Witness for C1: a store whose only chat row belongs to a different
identifier, and a query fault. -/
theorem getAllMessages_unresolved_empty_witness :
    (∀ r ∈ (Store.mk [ChatRow.mk "bob@x.com" 1 "iMessage;-;bob@x.com"] [] []).chat,
        r.guid ≠ "iMessage;-;" ++ "alice@x.com") ∧
    getAllMessagesForIdentifier (Except.ok (sqlMessagesFor
        (Store.mk [ChatRow.mk "bob@x.com" 1 "iMessage;-;bob@x.com"] [] [])
        "alice@x.com")) = Except.ok [] ∧
    getAllMessagesForIdentifier (Except.error "query fault") = Except.error "query fault" := by
  have h : ∀ r ∈ (Store.mk [ChatRow.mk "bob@x.com" 1 "iMessage;-;bob@x.com"] [] []).chat,
      r.guid ≠ "iMessage;-;" ++ "alice@x.com" := by decide
  have main := getAllMessages_unresolved_empty
    (Store.mk [ChatRow.mk "bob@x.com" 1 "iMessage;-;bob@x.com"] [] []) "alice@x.com" h
  exact ⟨h, main.1, main.2 "query fault"⟩

/-- Claim C10: every Message produced by getAllMessagesForIdentifier has
its sender flag true exactly when the row's is_from_me is the integer 1,
and its attachment flag true exactly when the row's
cache_has_attachments is the integer 1. -/
theorem toMessage_flag_coercion (rows : List MessageRow) (entry : MessageRow) :
    getAllMessagesForIdentifier (Except.ok rows) = Except.ok (rows.map toMessage) ∧
    ((toMessage entry).is_from_me = true ↔ entry.is_from_me = 1) ∧
    ((toMessage entry).attachment = true ↔ entry.cache_has_attachments = 1) := by
  refine ⟨rfl, ?_, ?_⟩ <;> simp [toMessage]

/-- Claim C3: getMeanSentiment filters nothing: it maps every fetched
message (attachment-flagged or not) to a score, 0 for a null text and the
scorer's score otherwise, and resolves with the arithmetic mean of those
scores; a single null-text message yields 0, an empty conversation yields
the 0 / 0 value NaN. -/
theorem getMeanSentiment_spec (scorer : String → Int) (msgs : List Message)
    (m : Message) (hm : m.text = none) :
    getMeanSentiment scorer (Except.ok msgs) =
      Except.ok (jsMean (msgs.map (msgScore scorer))) ∧
    getMeanSentiment scorer (Except.ok [m]) = Except.ok (JSNum.num 0) ∧
    getMeanSentiment scorer (Except.ok []) = Except.ok JSNum.nan := by
  refine ⟨rfl, ?_, rfl⟩
  simp [getMeanSentiment, jsMean, msgScore, hm]

/-- Witness for C3 at a concrete scorer, message list, and null-text
message. -/
theorem getMeanSentiment_spec_witness :
    (Message.mk none false 0 false).text = none ∧
    (getMeanSentiment (fun _ => 2) (Except.ok [Message.mk (some "hi") true 0 true]) =
        Except.ok (jsMean ([Message.mk (some "hi") true 0 true].map (msgScore (fun _ => 2)))) ∧
      getMeanSentiment (fun _ => 2) (Except.ok [Message.mk none false 0 false]) =
        Except.ok (JSNum.num 0) ∧
      getMeanSentiment (fun _ => 2) (Except.ok []) = Except.ok JSNum.nan) :=
  ⟨rfl, getMeanSentiment_spec (fun _ => 2) [Message.mk (some "hi") true 0 true]
    (Message.mk none false 0 false) rfl⟩

/-- Claim C2 counterexample: the message text of two constructor words
yields two tokens, but the lookup stats[word] || 0 first finds the
inherited truthy Object.prototype.constructor, so the first increment
stores NaN and the second resets through NaN || 0 to 0 and stores 1: the
resolved count is 1 and the sum of counts is 1, not the token count 2. -/
theorem getWordFrequencies_constructor_miscount :
    collectTokens ([Message.mk (some "constructor constructor") false 0 false].filter
        (fun msg => !msg.attachment)) = Except.ok ["constructor", "constructor"] ∧
    getWordFrequencies (Except.ok [Message.mk (some "constructor constructor") false 0 false]) =
      Except.ok [("constructor", JSCount.num 1)] ∧
    jsCountSum ([("constructor", JSCount.num 1)].map Prod.snd) ≠
      JSCount.num ((["constructor", "constructor"] : List String).length) := by
  refine ⟨by decide, by decide, by decide⟩

/-- Claim C2 (amended): whenever getWordFrequencies resolves on a token
stream with no occurrence of the word constructor (the one token that
collides with an inherited key of the stats object: the other
all-lowercase inherited key contains underscores, which punctuation
stripping removes from every token), the resolved (word, count) list is
sorted by non-increasing count and the counts sum to the number of
tokens; a constructor token instead yields count NaN (one occurrence)
or one less than its number of occurrences. -/
theorem getWordFrequencies_sorted_sum (msgs : List Message)
    (toks : List String) (data : List (String × JSCount))
    (hc : collectTokens (msgs.filter (fun msg => !msg.attachment)) = Except.ok toks)
    (hnc : "constructor" ∉ toks)
    (hw : getWordFrequencies (Except.ok msgs) = Except.ok data) :
    data.Pairwise (fun a b => countGe a.2 b.2) ∧
    jsCountSum (data.map Prod.snd) = JSCount.num toks.length := by
  have hnp : "__proto__" ∉ toks := collectTokens_no_proto _ _ hc
  have hsafe : ∀ w ∈ toks, w ≠ "constructor" ∧ w ≠ "__proto__" :=
    fun w hwm => ⟨fun e => hnc (e ▸ hwm), fun e => hnp (e ▸ hwm)⟩
  have hw2 : Except.ok (jsSort wfLt (toks.foldl bumpWord [])) =
      (Except.ok data : Except String (List (String × JSCount))) := by
    rw [← hw]
    simp [getWordFrequencies, hc]
  have hdata : data = jsSort wfLt (toks.foldl bumpWord []) := by
    injection hw2 with h2
    exact h2.symm
  have hlift : toks.foldl bumpWord ([] : List (String × JSCount)) =
      liftStats (toks.foldl natBump []) := foldl_bumpWord_lift toks [] hsafe
  have hS : ∀ p ∈ liftStats (toks.foldl natBump []), ∃ n, p.2 = JSCount.num n := by
    intro p hp
    rcases List.mem_map.mp hp with ⟨q, _, rfl⟩
    exact ⟨q.2, rfl⟩
  constructor
  · rw [hdata, hlift]
    have hp := jsSort_pairwise wfLt (fun p => ∃ n, p.2 = JSCount.num n) wfLt_asym
      wfLt_nt (liftStats (toks.foldl natBump [])) hS
    exact hp.imp (fun {a b} h => countGe_of_wfLt_false a b h)
  · rw [hdata, hlift]
    have hS2 : ∀ x ∈ (jsSort wfLt (liftStats (toks.foldl natBump []))).map Prod.snd,
        ∃ n, x = JSCount.num n := by
      intro x hx
      rcases List.mem_map.mp hx with ⟨p, hp, rfl⟩
      exact hS p ((jsSort_perm wfLt _).mem_iff.mp hp)
    rw [jsCountSum_eq_num _ hS2]
    have hperm : (((jsSort wfLt (liftStats (toks.foldl natBump []))).map Prod.snd).map
        toNatD).Perm (((liftStats (toks.foldl natBump [])).map Prod.snd).map toNatD) :=
      ((jsSort_perm wfLt _).map Prod.snd).map toNatD
    rw [hperm.sum_eq]
    have hflat : ((liftStats (toks.foldl natBump [])).map Prod.snd).map toNatD =
        (toks.foldl natBump []).map Prod.snd := by
      simp [liftStats, toNatD, List.map_map, Function.comp]
    rw [hflat]
    have hsum := foldl_natBump_sum toks []
    simp only [List.map_nil, List.sum_nil, Nat.zero_add] at hsum
    rw [hsum]

/-- Witness for C2 (amended): one counted constructor-free message, one
excluded attachment message. -/
theorem getWordFrequencies_sorted_sum_witness :
    collectTokens ([Message.mk (some "a b a") false 0 false,
        Message.mk (some "zz") false 0 true].filter (fun msg => !msg.attachment)) =
      Except.ok ["a", "b", "a"] ∧
    ("constructor" ∉ (["a", "b", "a"] : List String)) ∧
    getWordFrequencies (Except.ok [Message.mk (some "a b a") false 0 false,
        Message.mk (some "zz") false 0 true]) =
      Except.ok [("a", JSCount.num 2), ("b", JSCount.num 1)] ∧
    ([("a", JSCount.num 2), ("b", JSCount.num 1)]).Pairwise (fun a b => countGe a.2 b.2) ∧
    jsCountSum (([("a", JSCount.num 2), ("b", JSCount.num 1)]).map Prod.snd) =
      JSCount.num (["a", "b", "a"] : List String).length := by
  refine ⟨by decide, by decide, by decide, ?_⟩
  exact getWordFrequencies_sorted_sum
    [Message.mk (some "a b a") false 0 false, Message.mk (some "zz") false 0 true]
    ["a", "b", "a"] [("a", JSCount.num 2), ("b", JSCount.num 1)] (by decide) (by decide)
    (by decide)

/-- Claim C5: on the fixture conversation holding the single
non-attachment text of the round-trip property, getWordFrequencies
resolves with exactly the counts i 2, love 2, you 2 (up to order among
the tied counts) and nothing else. -/
theorem getWordFrequencies_fixture :
    ∃ data, getWordFrequencies (Except.ok [fixtureMsg]) = Except.ok data ∧
      data.Perm [("i", JSCount.num 2), ("love", JSCount.num 2), ("you", JSCount.num 2)] :=
  ⟨[("i", JSCount.num 2), ("love", JSCount.num 2), ("you", JSCount.num 2)],
    by decide, by decide⟩

/-- Claim C9: a null text on any non-attachment message makes
getWordFrequencies reject — the punctuation replace is applied to the
null text — and the resolve branch is reachable exactly when every
non-attachment message has a non-null text. -/
theorem getWordFrequencies_null_text (msgs : List Message) (m : Message)
    (hm : m ∈ msgs) (hatt : m.attachment = false) (htext : m.text = none) :
    (∃ e, getWordFrequencies (Except.ok msgs) = Except.error e) ∧
    ∀ msgs2 : List Message, (∀ m2 ∈ msgs2, m2.attachment = false → m2.text ≠ none) →
      ∃ data, getWordFrequencies (Except.ok msgs2) = Except.ok data := by
  constructor
  · have hmem : m ∈ msgs.filter (fun msg => !msg.attachment) :=
      List.mem_filter.mpr ⟨hm, by simp [hatt]⟩
    rcases collectTokens_error_of_none _ ⟨m, hmem, htext⟩ with ⟨e, he⟩
    exact ⟨e, by simp [getWordFrequencies, he]⟩
  · intro msgs2 h2
    have hall : ∀ m2 ∈ msgs2.filter (fun msg => !msg.attachment), m2.text ≠ none := by
      intro m2 hm2
      rcases List.mem_filter.mp hm2 with ⟨hmm, hattb⟩
      exact h2 m2 hmm (by simpa using hattb)
    rcases collectTokens_ok_of_some _ hall with ⟨toks, htoks⟩
    exact ⟨jsSort wfLt (toks.foldl bumpWord []), by simp [getWordFrequencies, htoks]⟩

/-- Witness for C9: a single null-text non-attachment message. -/
theorem getWordFrequencies_null_text_witness :
    (Message.mk none false 0 false) ∈ [Message.mk none false 0 false] ∧
    (Message.mk none false 0 false).attachment = false ∧
    (Message.mk none false 0 false).text = none ∧
    (∃ e, getWordFrequencies (Except.ok [Message.mk none false 0 false]) = Except.error e) :=
  ⟨List.mem_cons_self _ _, rfl, rfl,
    (getWordFrequencies_null_text [Message.mk none false 0 false]
      (Message.mk none false 0 false) (List.mem_cons_self _ _) rfl rfl).1⟩

/-- Claim C6: getConversationMeanSentimentScores is fail-fast: if the
per-identifier sentiment computation rejects for any listed identifier,
the whole aggregate rejects (with the error of some failing identifier)
and produces no list at all. -/
theorem conversationScores_failFast (scorer : String → Int)
    (fetch : String → Except String (List MessageRow))
    (ids : List String) (identifier : String) (e : String)
    (hmem : identifier ∈ ids)
    (herr : getMeanSentimentFor scorer fetch identifier = Except.error e) :
    ∃ e2, getConversationMeanSentimentScores scorer (Except.ok ids) fetch =
        Except.error e2 ∧
      ∃ id2, id2 ∈ ids ∧ getMeanSentimentFor scorer fetch id2 = Except.error e2 := by
  have hin : Except.error e ∈ ids.map (getMeanSentimentFor scorer fetch) :=
    List.mem_map.mpr ⟨identifier, hmem, herr⟩
  rcases promiseAll_error _ e hin with ⟨e2, he2, hmem2⟩
  rcases List.mem_map.mp hmem2 with ⟨id2, hid2, hfid2⟩
  exact ⟨e2, by simp [getConversationMeanSentimentScores, he2], ⟨id2, hid2, hfid2⟩⟩

/-- Witness for C6: a single identifier whose underlying query faults. -/
theorem conversationScores_failFast_witness :
    ("a@x" ∈ ["a@x"]) ∧
    getMeanSentimentFor (fun _ => 0) (fun _ => Except.error "db fault") "a@x" =
      Except.error "db fault" ∧
    ∃ e2, getConversationMeanSentimentScores (fun _ => 0) (Except.ok ["a@x"])
        (fun _ => Except.error "db fault") = Except.error e2 ∧
      ∃ id2, id2 ∈ ["a@x"] ∧
        getMeanSentimentFor (fun _ => 0) (fun _ => Except.error "db fault") id2 =
          Except.error e2 :=
  ⟨List.mem_cons_self _ _, rfl,
    conversationScores_failFast (fun _ => 0) (fun _ => Except.error "db fault")
      ["a@x"] "a@x" "db fault" (List.mem_cons_self _ _) rfl⟩

/-- On a fault-free database every per-identifier computation resolves,
so the aggregate resolves with the sorted zip of identifiers and means. -/
theorem conversationScores_pure (scorer : String → Int) (ids : List String)
    (g : String → List MessageRow) :
    getConversationMeanSentimentScores scorer (Except.ok ids) (fun i => Except.ok (g i)) =
      Except.ok (jsSort scoreLt (ids.zip (ids.map (fun i =>
        jsMean (((g i).map toMessage).map (msgScore scorer)))))) := by
  have h1 : ids.map (getMeanSentimentFor scorer (fun i => Except.ok (g i))) =
      ids.map (fun i => Except.ok (jsMean (((g i).map toMessage).map (msgScore scorer)))) := rfl
  simp only [getConversationMeanSentimentScores, h1, promiseAll_ok_map]

/-- Claim C7 counterexample: on nanStore the means are 3, NaN and 4 in
store order; every comparison of the sort involves the NaN mean, whose
comparator value NaN counts as 0, so the engine-faithful sort leaves the
entries in store order and the score-3 entry precedes the score-4 entry:
the output is not sorted by non-increasing score. -/
theorem conversationScores_nan_unsorted :
    storeConversationScores (fun t => (t.length : Int)) nanStore =
      Except.ok [("a", JSNum.num 3), ("b", JSNum.nan), ("c", JSNum.num 4)] ∧
    ¬ ([("a", JSNum.num 3), ("b", JSNum.nan), ("c", JSNum.num 4)].Pairwise
        (fun p q => scoreGe p.2 q.2)) := by
  constructor
  · have hga : jsMean (((sqlMessagesFor nanStore "a").map toMessage).map
        (msgScore (fun t => (t.length : Int)))) = JSNum.num 3 := by
      have hsql : sqlMessagesFor nanStore "a" = [MessageRow.mk (some "pos") 0 0 0 10] := by
        decide
      rw [hsql]
      have hm : ([MessageRow.mk (some "pos") 0 0 0 10].map toMessage).map
          (msgScore (fun t => (t.length : Int))) = [3] := by decide
      rw [hm]
      simp [jsMean]
    have hgb : jsMean (((sqlMessagesFor nanStore "b").map toMessage).map
        (msgScore (fun t => (t.length : Int)))) = JSNum.nan := by
      have hsql : sqlMessagesFor nanStore "b" = [] := by decide
      rw [hsql]
      rfl
    have hgc : jsMean (((sqlMessagesFor nanStore "c").map toMessage).map
        (msgScore (fun t => (t.length : Int)))) = JSNum.num 4 := by
      have hsql : sqlMessagesFor nanStore "c" = [MessageRow.mk (some "best") 0 0 0 30] := by
        decide
      rw [hsql]
      have hm : ([MessageRow.mk (some "best") 0 0 0 30].map toMessage).map
          (msgScore (fun t => (t.length : Int))) = [4] := by decide
      rw [hm]
      simp [jsMean]
    have hmap : (["a", "b", "c"] : List String).map (fun i =>
        jsMean (((sqlMessagesFor nanStore i).map toMessage).map
          (msgScore (fun t => (t.length : Int))))) =
        [JSNum.num 3, JSNum.nan, JSNum.num 4] := by
      simp only [List.map_cons, List.map_nil, hga, hgb, hgc]
    have h := conversationScores_pure (fun t => (t.length : Int)) ["a", "b", "c"]
      (fun i => sqlMessagesFor nanStore i)
    rw [hmap] at h
    exact h
  · intro hp
    rcases List.pairwise_cons.mp hp with ⟨h1, _⟩
    have h3 := h1 ("c", JSNum.num 4) (by simp)
    have h4 : (4 : Rat) ≤ (3 : Rat) := h3
    norm_num at h4

/-- Claim C7 (amended): for every store state with a fault-free database
the aggregate resolves with exactly one (identifier, mean) entry per
identifier returned by allChatIdentifiers; when every listed conversation
holds at least one message — so no mean is NaN and the comparator is
consistent — the output is additionally sorted by non-increasing score.
With an empty conversation the NaN mean makes every comparator value a
tie and the sort can leave entries out of score order, as the
counterexample shows. -/
theorem conversationScores_sorted_complete (scorer : String → Int) (s : Store)
    (hne : ∀ identifier ∈ s.chat.map ChatRow.chat_identifier,
      sqlMessagesFor s identifier ≠ []) :
    (∃ out, storeConversationScores scorer s = Except.ok out ∧
      out.Pairwise (fun p q => scoreGe p.2 q.2) ∧
      (out.map Prod.fst).Perm (s.chat.map ChatRow.chat_identifier)) ∧
    ∀ s2 : Store, ∃ out2, storeConversationScores scorer s2 = Except.ok out2 ∧
      (out2.map Prod.fst).Perm (s2.chat.map ChatRow.chat_identifier) := by
  constructor
  · refine ⟨jsSort scoreLt ((s.chat.map ChatRow.chat_identifier).zip
        ((s.chat.map ChatRow.chat_identifier).map (fun i =>
          jsMean (((sqlMessagesFor s i).map toMessage).map (msgScore scorer))))),
      conversationScores_pure scorer (s.chat.map ChatRow.chat_identifier)
        (fun i => sqlMessagesFor s i), ?_, ?_⟩
    · have hS : ∀ p ∈ (s.chat.map ChatRow.chat_identifier).zip
          ((s.chat.map ChatRow.chat_identifier).map (fun i =>
            jsMean (((sqlMessagesFor s i).map toMessage).map (msgScore scorer)))),
          ∃ q, p.2 = JSNum.num q := by
        intro p hp
        rcases p with ⟨pid, pv⟩
        have h2 := (List.of_mem_zip hp).2
        rcases List.mem_map.mp h2 with ⟨i, hi, hv⟩
        have hnil : (((sqlMessagesFor s i).map toMessage).map (msgScore scorer)) ≠ [] := by
          simp only [ne_eq, List.map_eq_nil_iff]
          exact hne i hi
        rcases jsMean_num_of_ne_nil _ hnil with ⟨q, hq⟩
        rw [hv] at hq
        exact ⟨q, hq⟩
      have hp := jsSort_pairwise scoreLt (fun p => ∃ q, p.2 = JSNum.num q) scoreLt_asym
        scoreLt_nt _ hS
      exact hp.imp (fun {a b} h => scoreGe_of_scoreLt_false a b h)
    · have h1 := (jsSort_perm scoreLt ((s.chat.map ChatRow.chat_identifier).zip
          ((s.chat.map ChatRow.chat_identifier).map (fun i =>
            jsMean (((sqlMessagesFor s i).map toMessage).map (msgScore scorer)))))).map Prod.fst
      rwa [List.map_fst_zip _ _ (by simp)] at h1
  · intro s2
    refine ⟨jsSort scoreLt ((s2.chat.map ChatRow.chat_identifier).zip
        ((s2.chat.map ChatRow.chat_identifier).map (fun i =>
          jsMean (((sqlMessagesFor s2 i).map toMessage).map (msgScore scorer))))),
      conversationScores_pure scorer (s2.chat.map ChatRow.chat_identifier)
        (fun i => sqlMessagesFor s2 i), ?_⟩
    have h1 := (jsSort_perm scoreLt ((s2.chat.map ChatRow.chat_identifier).zip
        ((s2.chat.map ChatRow.chat_identifier).map (fun i =>
          jsMean (((sqlMessagesFor s2 i).map toMessage).map (msgScore scorer)))))).map Prod.fst
    rwa [List.map_fst_zip _ _ (by simp)] at h1

/-- Witness for C7 (amended): a store whose two conversations each hold
one message. -/
theorem conversationScores_sorted_complete_witness :
    (∀ identifier ∈ witStore.chat.map ChatRow.chat_identifier,
        sqlMessagesFor witStore identifier ≠ []) ∧
    ∃ out, storeConversationScores (fun t => (t.length : Int)) witStore = Except.ok out ∧
      out.Pairwise (fun p q => scoreGe p.2 q.2) ∧
      (out.map Prod.fst).Perm (witStore.chat.map ChatRow.chat_identifier) :=
  ⟨by decide, (conversationScores_sorted_complete (fun t => (t.length : Int)) witStore
    (by decide)).1⟩

/-- Claim C4 counterexample: on the specification's two-message scenario
(text Hello world without attachment, null text with attachment) the sort
comparator of getLongestMessages reads the null text's length and throws,
so the operation rejects instead of returning the single pair. -/
theorem getLongestMessages_scenario_rejects :
    getLongestMessages (Except.ok [Message.mk (some "Hello world") false 0 false,
        Message.mk none false 0 true]) = Except.error "TypeError: text is null" ∧
    getLongestMessages (Except.ok [Message.mk (some "Hello world") false 0 false,
        Message.mk none false 0 true]) ≠ Except.ok [(some "Hello world", false)] ∧
    getLongestMessages (Except.ok [Message.mk (some "Hello world") false 0 false,
        Message.mk none false 0 true]) ≠ Except.ok [(some "Hello world", true)] := by
  refine ⟨?_, ?_, ?_⟩ <;> decide

/-- Claim C4 (amended): when every fetched message has a non-null text,
getLongestMessages resolves with exactly the non-attachment messages
sorted by non-increasing text length and projected to (text, sender
flag), and attachment-flagged messages never appear; on the
specification's scenario, whose attachment message has a null text, it
instead rejects with the comparator's TypeError. -/
theorem getLongestMessages_sorted_filtered (msgs : List Message)
    (h : ∀ m ∈ msgs, m.text ≠ none) :
    (∃ (sortedMessages : List Message) (out : List (Option String × Bool)),
      sortedMessages.Perm msgs ∧
      getLongestMessages (Except.ok msgs) = Except.ok out ∧
      out = (sortedMessages.filter (fun msg => !msg.attachment)).map
          (fun msg => (msg.text, msg.is_from_me)) ∧
      out.Pairwise (fun p q => optTextLen q.1 ≤ optTextLen p.1) ∧
      ∀ p ∈ out, ∃ m2, m2 ∈ msgs ∧ m2.attachment = false ∧ p = (m2.text, m2.is_from_me)) ∧
    getLongestMessages (Except.ok [Message.mk (some "Hello world") false 0 false,
        Message.mk none false 0 true]) = Except.error "TypeError: text is null" := by
  constructor
  · refine ⟨sortBy lenLt msgs,
      ((sortBy lenLt msgs).filter (fun msg => !msg.attachment)).map
        (fun msg => (msg.text, msg.is_from_me)),
      sortBy_perm lenLt msgs, ?_, rfl, ?_, ?_⟩
    · simp [getLongestMessages, sortByLen_eq msgs h]
    · have hp := sortBy_pairwise lenLt lenLt_asym lenLt_skip msgs
      have hp2 := hp.filter (fun msg => !msg.attachment)
      refine List.Pairwise.map (fun msg => (msg.text, msg.is_from_me)) ?_ hp2
      intro a b hab
      simp only [lenLt, textLenD, decide_eq_false_iff_not] at hab
      simp only [optTextLen]
      omega
    · intro p hp
      rcases List.mem_map.mp hp with ⟨m2, hm2, hpm⟩
      rcases List.mem_filter.mp hm2 with ⟨hmem, hattb⟩
      exact ⟨m2, (sortBy_perm lenLt msgs).mem_iff.mp hmem, by simpa using hattb, hpm.symm⟩
  · decide

/-- Witness for C4 (amended): a null-free list with one attachment
message, whose resolution is also evaluated concretely. -/
theorem getLongestMessages_sorted_filtered_witness :
    (∀ m ∈ [Message.mk (some "ab") false 0 false, Message.mk (some "abcd") true 0 false,
        Message.mk (some "x") false 0 true], m.text ≠ none) ∧
    getLongestMessages (Except.ok [Message.mk (some "ab") false 0 false,
        Message.mk (some "abcd") true 0 false, Message.mk (some "x") false 0 true]) =
      Except.ok [(some "abcd", true), (some "ab", false)] ∧
    getLongestMessages (Except.ok [Message.mk (some "Hello world") false 0 false,
        Message.mk none false 0 true]) = Except.error "TypeError: text is null" := by
  refine ⟨by decide, by decide, ?_⟩
  exact (getLongestMessages_sorted_filtered [Message.mk (some "ab") false 0 false,
    Message.mk (some "abcd") true 0 false, Message.mk (some "x") false 0 true]
    (by decide)).2

/-- The regex class holds a character exactly when it is in the
specification's listed set or is the backtick (code point 96). -/
theorem inPunctClass_iff (c : Char) :
    inPunctClass c = true ↔ (c ∈ specPunctChars ∨ c = Char.ofNat 96) := by
  have he : ∀ d : Char, (c = d) ↔ (c.toNat = d.toNat) :=
    fun d => ⟨fun h => by rw [h], char_eq_of_toNat_eq⟩
  simp only [inPunctClass, Bool.or_eq_true, Bool.and_eq_true, beq_iff_eq,
    decide_eq_true_eq, specPunctChars, List.mem_cons, List.not_mem_nil, or_false, he,
    show ('.').toNat = 46 from rfl, show (',').toNat = 44 from rfl,
    show ('-').toNat = 45 from rfl, show ('/').toNat = 47 from rfl,
    show ('#').toNat = 35 from rfl, show ('!').toNat = 33 from rfl,
    show ('$').toNat = 36 from rfl, show ('%').toNat = 37 from rfl,
    show ('^').toNat = 94 from rfl, show ('&').toNat = 38 from rfl,
    show ('*').toNat = 42 from rfl, show (';').toNat = 59 from rfl,
    show (':').toNat = 58 from rfl, show (Char.ofNat 123).toNat = 123 from rfl,
    show (Char.ofNat 125).toNat = 125 from rfl, show ('=').toNat = 61 from rfl,
    show ('_').toNat = 95 from rfl, show (Char.ofNat 96).toNat = 96 from rfl,
    show ('~').toNat = 126 from rfl, show ('(').toNat = 40 from rfl,
    show (')').toNat = 41 from rfl]
  omega

/-- Pointwise Bool form of the previous equivalence. -/
theorem inPunctClass_eq_spec (ch : Char) :
    inPunctClass ch = (decide (ch ∈ specPunctChars) || ch == Char.ofNat 96) := by
  by_cases hm : ch ∈ specPunctChars ∨ ch = Char.ofNat 96
  · rw [(inPunctClass_iff ch).mpr hm]
    rcases hm with hm | hm
    · simp [hm]
    · simp [hm]
  · have hf : inPunctClass ch = false := by
      rcases Bool.eq_false_or_eq_true (inPunctClass ch) with hh | hh
      · exact absurd ((inPunctClass_iff ch).mp hh) hm
      · exact hh
    push_neg at hm
    rw [hf]
    simp [hm.1, hm.2]

/-- Claim C8 counterexample: the backtick (code point 96) is removed by
stripPunct although it is not in the specification's listed set, so the
stripped set is not exactly the listed one. -/
theorem stripPunct_backtick_removed :
    stripPunct (String.mk [Char.ofNat 96]) = "" ∧
    (Char.ofNat 96) ∉ specPunctChars := by
  constructor <;> decide

/-- Claim C8 (amended): the character set stripped before splitting is
exactly the specification's listed set plus the backtick: stripPunct
removes a character exactly when it is in that enlarged set, and no
other character. -/
theorem stripPunct_charset (c : Char) (s : String) :
    (inPunctClass c = true ↔ (c ∈ specPunctChars ∨ c = Char.ofNat 96)) ∧
    (stripPunct s).data =
      s.data.filter (fun ch => !(decide (ch ∈ specPunctChars) || ch == Char.ofNat 96)) := by
  refine ⟨inPunctClass_iff c, ?_⟩
  show s.data.filter (fun ch => !inPunctClass ch) = _
  apply List.filter_congr
  intro ch _
  rw [inPunctClass_eq_spec]
